import Mathlib

/-
Verification of the natural-language specification of the repository
makskliczkowski/HamiltonianSolver_ed_vqmc against a shallow embedding of its
three source files:

  - src/cpp/VQMC_S/include/algebra/global_symmetries.h
  - src/cpp/library/include/models/quadratic/SYK2.h
  - src/cpp/library/include/user_interface/user_interface_modp.hpp

Machine integers (u64, size_t) are modelled as Nat with explicit wrap-around
(mod 2 ^ 64) where overflow matters; double-valued parameters are modelled as
rationals except where an irrational constant or a square root forces reals;
fallible operations (std::vector::resize that may throw, invoking an empty
std::function) return Except.
-/

-- ############################################################################
-- Basis encoder: population count (std::popcount on a u64 basis state).
-- ############################################################################

/-- Fuel-driven helper for the population count. The fuel argument makes the
recursion structural, hence kernel-reducible; any fuel at least the argument
computes the true bit count. -/
def popcountFuel : Nat → Nat → Nat
  | _, 0 => 0
  | 0, _ + 1 => 0
  | f + 1, n + 1 => popcountFuel f ((n + 1) / 2) + (n + 1) % 2

/-- Embedding of std::popcount applied to a basis state: the number of set
bits in the binary expansion of n. Exact on every u64 value. -/
def popcount (n : Nat) : Nat := popcountFuel n n

theorem popcountFuel_congr : ∀ f₁ n f₂, n ≤ f₁ → n ≤ f₂ →
    popcountFuel f₁ n = popcountFuel f₂ n := by
  intro f₁
  induction f₁ with
  | zero =>
    intro n f₂ h₁ _
    cases n with
    | zero => cases f₂ <;> rfl
    | succ m => omega
  | succ g₁ ih =>
    intro n f₂ h₁ h₂
    cases n with
    | zero => cases f₂ <;> rfl
    | succ m =>
      cases f₂ with
      | zero => omega
      | succ g₂ =>
        show popcountFuel g₁ ((m + 1) / 2) + (m + 1) % 2
            = popcountFuel g₂ ((m + 1) / 2) + (m + 1) % 2
        rw [ih ((m + 1) / 2) g₂ (by omega) (by omega)]

theorem popcount_zero : popcount 0 = 0 := rfl

/-- The defining recurrence of the population count: low bit plus the count of
the remaining bits. -/
theorem popcount_div_two (n : Nat) : popcount n = popcount (n / 2) + n % 2 := by
  cases n with
  | zero => rfl
  | succ m =>
    show popcountFuel m ((m + 1) / 2) + (m + 1) % 2
        = popcountFuel ((m + 1) / 2) ((m + 1) / 2) + (m + 1) % 2
    rw [popcountFuel_congr m ((m + 1) / 2) ((m + 1) / 2) (by omega) (le_refl _)]

/-- Setting the bit at position Ns on a state below 2 ^ Ns adds one to the
population count. -/
theorem popcount_two_pow_add (Ns : Nat) :
    ∀ s, s < 2 ^ Ns → popcount (2 ^ Ns + s) = popcount s + 1 := by
  induction Ns with
  | zero =>
    intro s hs
    have hs0 : s = 0 := by omega
    subst hs0
    rfl
  | succ Ns ih =>
    intro s hs
    have hp : (2 : Nat) ^ (Ns + 1) = 2 * 2 ^ Ns := by ring
    rw [hp] at hs ⊢
    rw [popcount_div_two (2 * 2 ^ Ns + s)]
    have hdiv : (2 * 2 ^ Ns + s) / 2 = 2 ^ Ns + s / 2 := Nat.mul_add_div (by norm_num) _ _
    have hmod : (2 * 2 ^ Ns + s) % 2 = s % 2 := Nat.mul_add_mod _ _ _
    rw [hdiv, hmod, ih (s / 2) (by omega), popcount_div_two s]
    omega

/-- A state below 2 ^ Ns has at most Ns set bits. -/
theorem popcount_le (Ns : Nat) : ∀ s, s < 2 ^ Ns → popcount s ≤ Ns := by
  induction Ns with
  | zero =>
    intro s hs
    have hs0 : s = 0 := by omega
    subst hs0
    exact Nat.le_of_eq popcount_zero
  | succ Ns ih =>
    intro s hs
    have hp : (2 : Nat) ^ (Ns + 1) = 2 * 2 ^ Ns := by ring
    rw [popcount_div_two s]
    have h1 : popcount (s / 2) ≤ Ns := ih (s / 2) (by omega)
    omega

/-- Counting lemma: among the states 0, ..., 2 ^ Ns - 1, exactly
choose Ns k states have population count k. -/
theorem card_popcount_filter (Ns : Nat) :
    ∀ k, ((Finset.range (2 ^ Ns)).filter (fun s => popcount s = k)).card
      = Ns.choose k := by
  induction Ns with
  | zero =>
    intro k
    cases k with
    | zero => decide
    | succ k =>
      have h : (Finset.range (2 ^ 0)).filter (fun s => popcount s = k + 1) = ∅ := by
        apply Finset.filter_eq_empty_iff.mpr
        intro s hs
        have hs0 : s = 0 := by
          rw [Finset.mem_range] at hs
          omega
        subst hs0
        simp [popcount_zero]
      rw [h]
      simp
  | succ Ns ih =>
    intro k
    have hp : (2 : Nat) ^ (Ns + 1) = 2 ^ Ns + 2 ^ Ns := by ring
    have hdisj : Disjoint (Finset.range (2 ^ Ns))
        ((Finset.range (2 ^ Ns)).map (addLeftEmbedding (2 ^ Ns))) := by
      rw [Finset.disjoint_left]
      intro a ha hb
      rw [Finset.mem_range] at ha
      rcases Finset.mem_map.mp hb with ⟨y, _, hy⟩
      rw [addLeftEmbedding_apply] at hy
      omega
    rw [hp, Finset.range_add, Finset.filter_union,
      Finset.card_union_of_disjoint (Finset.disjoint_filter_filter hdisj),
      Finset.filter_map, Finset.card_map]
    have hcongr : (Finset.range (2 ^ Ns)).filter
          ((fun s => popcount s = k) ∘ addLeftEmbedding (2 ^ Ns))
        = (Finset.range (2 ^ Ns)).filter (fun a => popcount a + 1 = k) := by
      apply Finset.filter_congr
      intro s hs
      rw [Finset.mem_range] at hs
      show popcount (2 ^ Ns + s) = k ↔ popcount s + 1 = k
      rw [popcount_two_pow_add Ns s hs]
    rw [hcongr]
    cases k with
    | zero =>
      have h0 : (Finset.range (2 ^ Ns)).filter (fun a => popcount a + 1 = 0) = ∅ := by
        apply Finset.filter_eq_empty_iff.mpr
        intro s _
        omega
      rw [h0, ih 0]
      simp
    | succ k =>
      have h1 : (Finset.range (2 ^ Ns)).filter (fun a => popcount a + 1 = k + 1)
          = (Finset.range (2 ^ Ns)).filter (fun a => popcount a = k) := by
        apply Finset.filter_congr
        intro s _
        omega
      rw [h1, ih k, ih (k + 1), Nat.choose_succ_succ]
      simp only [Nat.succ_eq_add_one]
      omega

-- ############################################################################
-- global_symmetries.h : the U(1) predicate U1Sym.
-- ############################################################################

/-- Embedding of GlobalSyms::U1Sym from global_symmetries.h:
popcount(state) == val, with the double target modelled as a rational (every
integer target of interest is exactly representable in double). -/
def U1Sym (s : Nat) (v : ℚ) : Bool := decide ((popcount s : ℚ) = v)

theorem U1Sym_true_iff (s k : Nat) : (U1Sym s (k : ℚ) = true) ↔ popcount s = k := by
  simp [U1Sym]

/-- The U(1) symmetry sector with target k: the basis states below 2 ^ Ns
accepted by U1Sym. -/
def u1Sector (Ns k : Nat) : Finset Nat :=
  (Finset.range (2 ^ Ns)).filter (fun s => U1Sym s (k : ℚ))

/-- C3: for every Ns in [1, 20] and every k in [0, Ns], the number of basis
states s in [0, 2 ^ Ns) with U1Sym s k = true equals the binomial coefficient
choose Ns k. -/
theorem u1_sector_card_eq_choose (Ns k : Nat)
    (_h1 : 1 ≤ Ns) (_h2 : Ns ≤ 20) (_hk : k ≤ Ns) :
    (u1Sector Ns k).card = Ns.choose k := by
  have h : u1Sector Ns k = (Finset.range (2 ^ Ns)).filter (fun s => popcount s = k) :=
    Finset.filter_congr (fun s _ => by simp [U1Sym_true_iff])
  rw [h, card_popcount_filter]

/-- Witness for C3 at the spec example: Ns = 4, target 2, sector size 6. -/
theorem u1_sector_card_eq_choose_witness :
    (1 ≤ 4 ∧ 4 ≤ 20 ∧ 2 ≤ 4) ∧ (u1Sector 4 2).card = Nat.choose 4 2 :=
  ⟨by decide, u1_sector_card_eq_choose 4 2 (by decide) (by decide) (by decide)⟩

/-- C4: for every Ns, the U(1) sectors for targets k in [0, Ns] are pairwise
disjoint and their union over k is the full state space [0, 2 ^ Ns). -/
theorem u1_sectors_partition (Ns : Nat) :
    (∀ k₁ k₂, k₁ ≤ Ns → k₂ ≤ Ns → k₁ ≠ k₂ →
      Disjoint (u1Sector Ns k₁) (u1Sector Ns k₂)) ∧
    (Finset.range (Ns + 1)).biUnion (u1Sector Ns) = Finset.range (2 ^ Ns) := by
  constructor
  · intro k₁ k₂ _ _ hne
    rw [Finset.disjoint_left]
    intro s hs₁ hs₂
    rw [u1Sector, Finset.mem_filter, U1Sym_true_iff] at hs₁ hs₂
    exact hne (hs₁.2.symm.trans hs₂.2)
  · ext s
    simp only [Finset.mem_biUnion, Finset.mem_range, u1Sector, Finset.mem_filter,
      U1Sym_true_iff]
    constructor
    · rintro ⟨k, _, hs, _⟩
      exact hs
    · intro hs
      exact ⟨popcount s, by have := popcount_le Ns s hs; omega, hs, rfl⟩

/-- Witness for C4 at Ns = 4, sectors 1 and 2. -/
theorem u1_sectors_partition_witness :
    Disjoint (u1Sector 4 1) (u1Sector 4 2) ∧
    (Finset.range 5).biUnion (u1Sector 4) = Finset.range (2 ^ 4) :=
  ⟨(u1_sectors_partition 4).1 1 2 (by decide) (by decide) (by decide),
    (u1_sectors_partition 4).2⟩

-- ############################################################################
-- global_symmetries.h : the GlobalSym class.
-- ############################################################################

/-- Boundary-condition identifier exposed by the lattice collaborator
(only the two values exercised by the modelled code are needed). -/
inductive BoundaryConditions
  | PBC
  | OBC
deriving DecidableEq

/-- Embedding of getSTR_BoundaryConditions: printable name of a boundary
condition. -/
def getSTR_BoundaryConditions : BoundaryConditions → String
  | .PBC => "PBC"
  | .OBC => "OBC"

/-- The lattice collaborator, reduced to the two observations the modelled
code makes of it: its site count and its boundary condition. (The source
class is named Lattice; that name is taken by Mathlib, hence LatticeGeom.) -/
structure LatticeGeom where
  Ns : Nat
  BC : BoundaryConditions
deriving DecidableEq

/-- Embedding of GlobalSyms::GlobalSymGenerators. -/
inductive GlobalSymGenerators
  | U1
  | OTHER
deriving DecidableEq

/-- Error raised when an empty std::function is invoked
(std::bad_function_call). -/
inductive SymError
  | badFunctionCall
deriving DecidableEq

/-- Embedding of GlobalSyms::GlobalSym. The stored std::function check_ is
modelled as an Option: a default-constructed std::function is empty (none),
and invoking it throws std::bad_function_call. The shared lattice pointer is
an Option as well (it may be null). -/
structure GlobalSym where
  name_ : GlobalSymGenerators
  check_ : Option (Nat → ℚ → Bool)
  val_ : ℚ
  lat_ : Option LatticeGeom

/-- The GlobalSym constructor: GlobalSym(lat, name) initialises val_ to 0 and
leaves check_ default-constructed (empty). -/
def GlobalSym.init (lat : Option LatticeGeom)
    (name : GlobalSymGenerators := .OTHER) : GlobalSym :=
  { name_ := name, check_ := none, val_ := 0, lat_ := lat }

/-- Embedding of GlobalSym::setFun: installs the membership test, replacing
any prior one. -/
def GlobalSym.setFun (g : GlobalSym) (f : Nat → ℚ → Bool) : GlobalSym :=
  { g with check_ := some f }

/-- Embedding of GlobalSym::setName. -/
def GlobalSym.setName (g : GlobalSym) (name : GlobalSymGenerators) : GlobalSym :=
  { g with name_ := name }

/-- Embedding of GlobalSym::operator()(u64 state): this->check_(state, val_).
Invoking the empty std::function throws std::bad_function_call, modelled as
an Except error. (The const and non-const overloads share this body.) -/
def GlobalSym.evaluate (g : GlobalSym) (state : Nat) : Except SymError Bool :=
  match g.check_ with
  | none => .error .badFunctionCall
  | some f => .ok (f state g.val_)

/-- Embedding of GlobalSym::check(u64 state, bool outCond):
this->check_(state, val_) && outCond. -/
def GlobalSym.check (g : GlobalSym) (state : Nat) (outCond : Bool) :
    Except SymError Bool :=
  match g.check_ with
  | none => .error .badFunctionCall
  | some f => .ok (f state g.val_ && outCond)

/-- C5: evaluating a GlobalSym on which setFun has never been called fails
explicitly (std::bad_function_call from the empty std::function) for every
state; it never returns a boolean. -/
theorem globalSym_evaluate_unset_fails (lat : Option LatticeGeom)
    (name : GlobalSymGenerators) (state : Nat) :
    (GlobalSym.init lat name).evaluate state = .error .badFunctionCall ∧
    ∀ b : Bool, (GlobalSym.init lat name).evaluate state ≠ .ok b := by
  refine ⟨rfl, fun b h => ?_⟩
  simp [GlobalSym.evaluate, GlobalSym.init] at h

/-- C6: with an installed predicate p and target value t, evaluate returns
p state t and check returns (p state t) AND outCond. -/
theorem globalSym_evaluate_check_installed (g : GlobalSym)
    (p : Nat → ℚ → Bool) (t : ℚ) (state : Nat) (outCond : Bool)
    (hp : g.check_ = some p) (ht : g.val_ = t) :
    g.evaluate state = .ok (p state t) ∧
    g.check state outCond = .ok (p state t && outCond) := by
  constructor <;> simp [GlobalSym.evaluate, GlobalSym.check, hp, ht]

/-- Witness for C6: a U(1) generator whose predicate is installed via setFun
and whose public target val_ has been assigned 2, evaluated at state 5
(binary 101, two set bits). -/
theorem globalSym_evaluate_check_installed_witness :
    ({ (GlobalSym.init none).setFun U1Sym with val_ := 2 } : GlobalSym).evaluate 5
        = .ok (U1Sym 5 2) ∧
    ({ (GlobalSym.init none).setFun U1Sym with val_ := 2 } : GlobalSym).check 5 true
        = .ok (U1Sym 5 2 && true) :=
  globalSym_evaluate_check_installed
    { (GlobalSym.init none).setFun U1Sym with val_ := 2 } U1Sym 2 5 true rfl rfl

-- ############################################################################
-- SYK2.h : the two-body random-matrix model over the quadratic Hamiltonian
-- base class.
-- ############################################################################

/-- Embedding of the MY_MODELS type tag (the constructors exercised by the
modelled code). -/
inductive MY_MODELS
  | ISING_M
  | SYK2_M
  | FREE_FERMIONS_M
  | NONE_M
deriving DecidableEq

/-- Modelled from the spec: the Hilbert-space collaborator (Hilbert::
HilbertSpace, whose definition is not under src/). Per the spec it exposes
the dimension (here the site count of the full single-particle space) and is
built over a lattice, which it hands to the model; a lattice-free descriptor
carries none. -/
structure HilbertSpace where
  Ns : Nat
  lat : Option LatticeGeom
deriving DecidableEq

/-- The observable state of a quadratic Hamiltonian model: type tag, site
count Ns, working dimension Nh, shared lattice handle, additive constant and
the cached descriptive string. The matrix buffer is modelled separately
(SYK2Buffer) since its scalar type varies. -/
structure QuadraticHamiltonianState where
  type_ : MY_MODELS
  Ns_ : Nat
  Nh_ : Nat
  lat_ : Option LatticeGeom
  constant_ : ℚ
  info_ : String
deriving DecidableEq

/-- Modelled from the spec: the QuadraticHamiltonian base constructor from a
lattice reference (hamilQ.h is not under src/). Per the spec all construction
paths set the same derived fields; the quadratic working dimension equals the
site count (the coupling object is Ns x Ns). -/
def QuadraticHamiltonianState.fromLat (lat : LatticeGeom) (c : ℚ) :
    QuadraticHamiltonianState :=
  { type_ := .NONE_M, Ns_ := lat.Ns, Nh_ := lat.Ns, lat_ := some lat,
    constant_ := c, info_ := "" }

/-- Modelled from the spec: the QuadraticHamiltonian base constructor from a
raw site count only (lattice-free; hamilQ.h is not under src/). -/
def QuadraticHamiltonianState.fromNs (Ns : Nat) (c : ℚ) :
    QuadraticHamiltonianState :=
  { type_ := .NONE_M, Ns_ := Ns, Nh_ := Ns, lat_ := none,
    constant_ := c, info_ := "" }

/-- Modelled from the spec: the QuadraticHamiltonian base constructor from a
Hilbert-space descriptor (hamilQ.h is not under src/); it takes the dimension
and the lattice handle from the descriptor. -/
def QuadraticHamiltonianState.fromHilbert (hil : HilbertSpace) (c : ℚ) :
    QuadraticHamiltonianState :=
  { type_ := .NONE_M, Ns_ := hil.Ns, Nh_ := hil.Ns, lat_ := hil.lat,
    constant_ := c, info_ := "" }

/-- Modelled from the spec: QuadraticHamiltonian::info(name, skip, sep)
appends every tracked model-specific parameter to the name; SYK2 tracks none
beyond the fields already rendered, so the name passes through. -/
def QuadraticHamiltonianState.infoBase (_st : QuadraticHamiltonianState)
    (name : String) : String :=
  name

/-- Embedding of SYK2::info with the default arguments (skip = {}, sep = "_",
prec = 2): sep + "SYK2,Ns=" + STR(Ns) + ",BC=" + name of the boundary
condition, where the boundary condition falls back to PBC when the lattice
handle is null. -/
def SYK2.info (st : QuadraticHamiltonianState) (sep : String := "_") : String :=
  let Ns := st.Ns_
  let BC := match st.lat_ with
    | some l => l.BC
    | none => BoundaryConditions.PBC
  let name := sep ++ "SYK2,Ns=" ++ toString Ns ++ ",BC="
    ++ getSTR_BoundaryConditions BC
  st.infoBase name

/-- Embedding of the SYK2 lattice constructor: delegate to the base class,
set the type tag to SYK2_M, then cache info(). -/
def SYK2.fromLat (lat : LatticeGeom) (c : ℚ) : QuadraticHamiltonianState :=
  let base := { QuadraticHamiltonianState.fromLat lat c with
    type_ := MY_MODELS.SYK2_M }
  { base with info_ := SYK2.info base }

/-- Embedding of the SYK2 raw-site-count constructor. -/
def SYK2.fromNs (Ns : Nat) (c : ℚ) : QuadraticHamiltonianState :=
  let base := { QuadraticHamiltonianState.fromNs Ns c with
    type_ := MY_MODELS.SYK2_M }
  { base with info_ := SYK2.info base }

/-- Embedding of the SYK2 copy Hilbert-space constructor. -/
def SYK2.fromHilbertCopy (hil : HilbertSpace) (c : ℚ) :
    QuadraticHamiltonianState :=
  let base := { QuadraticHamiltonianState.fromHilbert hil c with
    type_ := MY_MODELS.SYK2_M }
  { base with info_ := SYK2.info base }

/-- Embedding of the SYK2 move Hilbert-space constructor: moving the
descriptor transfers the same dimension and lattice handle as copying it. -/
def SYK2.fromHilbertMove (hil : HilbertSpace) (c : ℚ) :
    QuadraticHamiltonianState :=
  let base := { QuadraticHamiltonianState.fromHilbert hil c with
    type_ := MY_MODELS.SYK2_M }
  { base with info_ := SYK2.info base }

/-- Embedding of SYK2::updateInfo: recompute and cache the descriptive
string. -/
def SYK2.updateInfo (st : QuadraticHamiltonianState) :
    QuadraticHamiltonianState :=
  { st with info_ := SYK2.info st }

/-- C9 counterexample: with an open-boundary lattice of 4 sites, the lattice
construction path and the lattice-free construction path cache different info
strings ("_SYK2,Ns=4,BC=OBC" against "_SYK2,Ns=4,BC=PBC"), so the three
construction paths do not produce fully equivalent model state as claimed. -/
theorem syk2_construction_info_differs :
    (SYK2.fromLat { Ns := 4, BC := .OBC } 0).info_ ≠ (SYK2.fromNs 4 0).info_ := by
  decide

/-- C9 amended: the three SYK2 construction paths agree on the type tag, the
site count Ns and the dimension Nh; the lattice path and the Hilbert path
(over a descriptor carrying the same lattice) also agree on the cached info
string, and the lattice-free path agrees with them whenever the lattice has
periodic boundary conditions (the fallback recorded when no lattice is
present); moving the descriptor is equivalent to copying it. -/
theorem syk2_construction_paths_equivalent (lat : LatticeGeom) (c : ℚ) :
    (SYK2.fromLat lat c).type_ = (SYK2.fromNs lat.Ns c).type_ ∧
    (SYK2.fromLat lat c).type_
      = (SYK2.fromHilbertCopy { Ns := lat.Ns, lat := some lat } c).type_ ∧
    (SYK2.fromLat lat c).Ns_ = (SYK2.fromNs lat.Ns c).Ns_ ∧
    (SYK2.fromLat lat c).Ns_
      = (SYK2.fromHilbertCopy { Ns := lat.Ns, lat := some lat } c).Ns_ ∧
    (SYK2.fromLat lat c).Nh_ = (SYK2.fromNs lat.Ns c).Nh_ ∧
    (SYK2.fromLat lat c).Nh_
      = (SYK2.fromHilbertCopy { Ns := lat.Ns, lat := some lat } c).Nh_ ∧
    (SYK2.fromLat lat c).info_
      = (SYK2.fromHilbertCopy { Ns := lat.Ns, lat := some lat } c).info_ ∧
    (lat.BC = .PBC → (SYK2.fromLat lat c).info_ = (SYK2.fromNs lat.Ns c).info_) ∧
    SYK2.fromHilbertMove { Ns := lat.Ns, lat := some lat } c
      = SYK2.fromHilbertCopy { Ns := lat.Ns, lat := some lat } c := by
  refine ⟨rfl, rfl, rfl, rfl, rfl, rfl, rfl, ?_, rfl⟩
  intro hbc
  simp [SYK2.fromLat, SYK2.fromNs, SYK2.info, QuadraticHamiltonianState.fromLat,
    QuadraticHamiltonianState.fromNs, QuadraticHamiltonianState.infoBase, hbc]

/-- Witness for C9 at a periodic 4-site lattice, where all three paths agree
on the cached info string as well. -/
theorem syk2_construction_paths_equivalent_witness :
    (SYK2.fromLat { Ns := 4, BC := .PBC } 0).info_ = (SYK2.fromNs 4 0).info_ :=
  ((syk2_construction_paths_equivalent { Ns := 4, BC := .PBC } 0).2.2.2.2.2.2.2.1) rfl

-- ############################################################################
-- SYK2.h : the hamiltonian() fill. The GOE draw ran_.GOE(Nh, Nh) is supplied
-- by the linear-algebra collaborator (not under src/); it enters the
-- embedding as the explicit next sample of the random stream.
-- ############################################################################

/-- Embedding of the SYK2::hamiltonian() assignment for a real scalar type:
H_ = GOE(Nh, Nh) / sqrt(Nh) + cast(I) * zeros(Nh, Nh). For a real scalar the
cast of the imaginary unit times the zero matrix is the zero matrix, kept
here to mirror the source expression. -/
noncomputable def SYK2.hamiltonianMatR (Nh : Nat)
    (goe : Matrix (Fin Nh) (Fin Nh) ℝ) : Matrix (Fin Nh) (Fin Nh) ℝ :=
  Matrix.of (fun i j => goe i j / Real.sqrt Nh) + (0 : Matrix (Fin Nh) (Fin Nh) ℝ)

/-- Embedding of the SYK2::hamiltonian() assignment for a complex scalar
type: the imaginary unit times the zero matrix is again the zero matrix. -/
noncomputable def SYK2.hamiltonianMatC (Nh : Nat)
    (goe : Matrix (Fin Nh) (Fin Nh) ℂ) : Matrix (Fin Nh) (Fin Nh) ℂ :=
  Matrix.of (fun i j => goe i j / (Real.sqrt Nh : ℂ))
    + Complex.I • (0 : Matrix (Fin Nh) (Fin Nh) ℂ)

/-- The matrix buffer H_ owned by a (real-scalar) SYK2 model instance. -/
structure SYK2Buffer (Nh : Nat) where
  H_ : Matrix (Fin Nh) (Fin Nh) ℝ

/-- One call of SYK2::hamiltonian() on the buffer: init() prepares the buffer
and the assignment overwrites it with the freshly drawn, normalized sample. -/
noncomputable def SYK2.hamiltonianCall (Nh : Nat)
    (goe : Matrix (Fin Nh) (Fin Nh) ℝ) (_st : SYK2Buffer Nh) : SYK2Buffer Nh :=
  { H_ := SYK2.hamiltonianMatR Nh goe }

/-- C7: a call of SYK2::hamiltonian() yields the same buffer whatever the
buffer held before (the call fully overwrites, it is not additive), and every
entry of the result is the drawn GOE entry divided by sqrt(Nh). -/
theorem syk2_hamiltonian_overwrites (Nh : Nat)
    (goe : Matrix (Fin Nh) (Fin Nh) ℝ) (st st' : SYK2Buffer Nh) :
    SYK2.hamiltonianCall Nh goe st = SYK2.hamiltonianCall Nh goe st' ∧
    ∀ i j, (SYK2.hamiltonianCall Nh goe st).H_ i j = goe i j / Real.sqrt Nh := by
  refine ⟨rfl, fun i j => ?_⟩
  simp [SYK2.hamiltonianCall, SYK2.hamiltonianMatR]

/-- C8: when the drawn sample is symmetric (real scalar) respectively
Hermitian (complex scalar) — which the spec guarantees of the collaborator
GOE sampler — the matrix produced by SYK2::hamiltonian() is exactly
symmetric respectively Hermitian, with no post-hoc symmetrization step;
exact equality of the mirrored entries is stronger than the 1e-9 relative
tolerance the claim allows. -/
theorem syk2_hamiltonian_symmetric (Nh : Nat)
    (goeR : Matrix (Fin Nh) (Fin Nh) ℝ) (goeC : Matrix (Fin Nh) (Fin Nh) ℂ)
    (hR : goeR.IsSymm) (hC : goeC.IsHermitian) :
    (SYK2.hamiltonianMatR Nh goeR).IsSymm ∧
    (SYK2.hamiltonianMatC Nh goeC).IsHermitian := by
  constructor
  · rw [Matrix.IsSymm]
    ext i j
    have h1 : goeR j i = goeR i j := congrFun (congrFun hR i) j
    simp [SYK2.hamiltonianMatR, Matrix.transpose_apply, h1]
  · rw [Matrix.IsHermitian]
    ext i j
    have h1 : star (goeC j i) = goeC i j := hC.apply i j
    simp [SYK2.hamiltonianMatC, Matrix.conjTranspose_apply, div_eq_mul_inv,
      star_mul', ← Complex.ofReal_inv, h1]

/-- Witness for C8 at Nh = 1 with the zero sample, which is symmetric and
Hermitian. -/
theorem syk2_hamiltonian_symmetric_witness :
    ((0 : Matrix (Fin 1) (Fin 1) ℝ).IsSymm ∧
      (0 : Matrix (Fin 1) (Fin 1) ℂ).IsHermitian) ∧
    ((SYK2.hamiltonianMatR 1 0).IsSymm ∧
      (SYK2.hamiltonianMatC 1 0).IsHermitian) :=
  ⟨⟨Matrix.isSymm_zero, Matrix.isHermitian_zero⟩,
    syk2_hamiltonian_symmetric 1 0 0 Matrix.isSymm_zero Matrix.isHermitian_zero⟩

-- ############################################################################
-- user_interface_modp.hpp : the aggregate parameter record ModP.
-- ############################################################################

/-- Unsigned 64-bit subtraction: the size_t difference computed by
resizeQSM/resizeUM wraps modulo 2 ^ 64. -/
def usub64 (a b : Nat) : Nat := (a % 2 ^ 64 + (2 ^ 64 - b % 2 ^ 64)) % 2 ^ 64

/-- The largest element count a libstdc++ std::vector of double accepts
(max_size = PTRDIFF_MAX / sizeof(double)); a resize request beyond it throws
std::length_error. -/
def vecMaxSize : Nat := (2 ^ 63 - 1) / 8

/-- Embedding of std::vector<double>::resize(n): keep the first n elements,
value-initialise the rest; a request beyond max_size throws, modelled as an
Except error. -/
def vecResize (v : List ℚ) (n : Nat) : Except Unit (List ℚ) :=
  if n ≤ vecMaxSize then .ok (v.take n ++ List.replicate (n - v.length) 0)
  else .error ()

/-- Embedding of ModP::qsm_t (fields created by the UI_PARAM macros, with the
declared defaults; each vector parameter carries its scalar companion with
suffix r). size_t members are Nat. -/
structure qsm_t where
  qsm_N_ : Nat := 1
  qsm_Ntot_ : Nat := 1
  qsm_gamma_ : ℚ := 1
  qsm_g0_ : ℚ := 1
  qsm_alpha_ : List ℚ := []
  qsm_alpha_r_ : ℚ := 0
  qsm_xi_ : List ℚ := []
  qsm_xi_r_ : ℚ := 0
  qsm_h_ : List ℚ := []
  qsm_h_r_ : ℚ := 0
deriving DecidableEq

/-- Embedding of ModP::qsm_t::resizeQSM. The source computes
_N = qsm_Ntot_ - qsm_N_ in size_t (which wraps below zero), guards on
_N < 0 — a comparison that is always false for the unsigned type — and then
resizes qsm_alpha_ and qsm_xi_ to qsm_Ntot_ - qsm_N_ and qsm_h_ to _N,
zeroing the three scalar companions. A throw from a resize aborts the call. -/
def qsm_t.resizeQSM (q : qsm_t) : Except Unit qsm_t :=
  let _N := usub64 q.qsm_Ntot_ q.qsm_N_
  if _N < 0 then .ok q
  else
    match vecResize q.qsm_alpha_ (usub64 q.qsm_Ntot_ q.qsm_N_),
        vecResize q.qsm_xi_ (usub64 q.qsm_Ntot_ q.qsm_N_),
        vecResize q.qsm_h_ _N with
    | .ok a, .ok x, .ok h =>
      .ok { q with
        qsm_alpha_r_ := 0, qsm_alpha_ := a,
        qsm_xi_r_ := 0, qsm_xi_ := x,
        qsm_h_r_ := 0, qsm_h_ := h }
    | _, _, _ => .error ()

/-- Embedding of ModP::rosenzweig_porter_t. -/
structure rosenzweig_porter_t where
  rp_g_ : List ℚ := []
  rp_g_r_ : ℚ := 0
  rp_single_particle_ : Bool := false
  rp_be_real_ : Bool := true
  rp_g_sweep_n_ : Int := 1
deriving DecidableEq

/-- Embedding of ModP::ultrametric_t. -/
structure ultrametric_t where
  um_N_ : Nat := 1
  um_Ntot_ : Nat := 1
  um_alpha_ : List ℚ := []
  um_alpha_r_ : ℚ := 0
  um_g_ : ℚ := 1
deriving DecidableEq

/-- Embedding of ModP::ultrametric_t::resizeUM, with the same always-false
unsigned guard as resizeQSM. -/
def ultrametric_t.resizeUM (u : ultrametric_t) : Except Unit ultrametric_t :=
  let _N := usub64 u.um_Ntot_ u.um_N_
  if _N < 0 then .ok u
  else
    match vecResize u.um_alpha_ _N with
    | .ok a => .ok { u with um_alpha_r_ := 0, um_alpha_ := a }
    | .error _ => .error ()

noncomputable section

/-- Embedding of ModP::aubry_andre_t. The default of aa_beta_ is the double
approximation of the golden ratio (1 + sqrt 5) / 2; this one irrational
constant forces a real-valued field. -/
structure aubry_andre_t where
  aa_J_ : ℚ := 1
  aa_lambda_ : ℚ := 1 / 2
  aa_beta_ : ℝ := (1 + Real.sqrt 5) / 2
  aa_phi_ : ℚ := 1

/-- Embedding of ModP::power_law_random_bandwidth_t. -/
structure power_law_random_bandwidth_t where
  plrb_a_ : List ℚ := []
  plrb_a_r_ : ℚ := 0
  plrb_b_ : ℚ := 1
  plrb_mb_ : Bool := false

/-- Embedding of the aggregate parameter record UI_PARAMS::ModP with the
defaults declared by its UI_PARAM macros (vector parameters default to
empty). The source name is UI_PARAMS::ModP; the bare name ModP is taken by
Mathlib, hence the qualified Lean name. -/
structure UI_PARAMS.ModP where
  modTyp_ : MY_MODELS := .ISING_M
  modRanN_ : List Nat := []
  modRanSeed_ : Nat := 0
  modRanNIdx_ : Nat := 0
  eth_entro_ : Bool := false
  eth_susc_ : Bool := true
  eth_ipr_ : Bool := true
  eth_offd_ : Bool := false
  eth_end_ : List ℚ := []
  modMidStates_ : ℚ := 1
  modEnDiff_ : ℚ := 1
  operators : List String := []
  J1_ : ℚ := 1
  hz_ : ℚ := 1
  hx_ : ℚ := 1
  J2_ : ℚ := 2
  eta1_ : ℚ := 1 / 2
  eta2_ : ℚ := 1 / 2
  dlt1_ : ℚ := 3 / 10
  dlt2_ : ℚ := 3 / 10
  Kx_ : List ℚ := []
  Ky_ : List ℚ := []
  Kz_ : List ℚ := []
  heiJ_ : List ℚ := []
  heiDlt_ : List ℚ := []
  heiHx_ : List ℚ := []
  heiHz_ : List ℚ := []
  qsm : qsm_t := {}
  rosenzweig_porter : rosenzweig_porter_t := {}
  ultrametric : ultrametric_t := {}
  q_gamma_ : Nat := 1
  q_manifold_ : Bool := false
  q_manybody_ : Bool := true
  q_randomCombNum_ : Nat := 100
  q_realizationNum_ : Nat := 100
  q_shuffle_ : Bool := true
  q_broad_ : ℚ := 1 / 10
  aubry_andre : aubry_andre_t := {}
  power_law_random_bandwidth : power_law_random_bandwidth_t := {}

/-- Embedding of ModP::setDefault(): resets the model type, the operator
list, the random-realization list, the spin-model scalar parameters, the
Kitaev/Heisenberg coupling vectors, the QSM parameters and vectors, the
Rosenzweig-Porter vector and the Aubry-Andre parameters. It does not touch
the Ultrametric vector um_alpha_ or the power-law vector plrb_a_. -/
def UI_PARAMS.ModP.setDefault (p : UI_PARAMS.ModP) : UI_PARAMS.ModP :=
  { p with
    modTyp_ := .ISING_M,
    operators := ["sz/L", "sz/1"],
    modRanN_ := [1],
    J1_ := 1, hz_ := 1, hx_ := 1,
    J2_ := 2, eta1_ := 1 / 2, eta2_ := 1 / 2, dlt1_ := 3 / 10, dlt2_ := 3 / 10,
    Kx_ := [1], Ky_ := [1], Kz_ := [1],
    heiJ_ := [1], heiDlt_ := [1], heiHz_ := [1], heiHx_ := [1],
    qsm := { p.qsm with
      qsm_gamma_ := 1, qsm_g0_ := 1, qsm_Ntot_ := 1,
      qsm_N_ := 1, qsm_alpha_ := [1], qsm_xi_ := [1], qsm_h_ := [1] },
    rosenzweig_porter := { p.rosenzweig_porter with rp_g_ := [1] },
    aubry_andre := { p.aubry_andre with
      aa_J_ := 1, aa_lambda_ := 1 / 2,
      aa_beta_ := (1 + Real.sqrt 5) / 2, aa_phi_ := 1 } }

end

/-- Embedding of ModP::getRanReal(uint i): modRanN_[i] when i is in bounds,
else modRanN_[size - 1]. Element access is modelled by the partial lookup, so
the out-of-bounds access performed on an empty vector surfaces as none. -/
def UI_PARAMS.ModP.getRanReal (p : UI_PARAMS.ModP) (i : Nat) : Option Nat :=
  if i < p.modRanN_.length then p.modRanN_.get? i
  else p.modRanN_.get? (p.modRanN_.length - 1)

/-- Embedding of ModP::checkComplex(). -/
def UI_PARAMS.ModP.checkComplex (p : UI_PARAMS.ModP) : Bool :=
  decide (p.modTyp_ = MY_MODELS.FREE_FERMIONS_M)

/-- C1 (evaluation at the failing input): with a sub-population count
exceeding the total (Ntot = 1, N = 2) the size_t difference wraps to
2 ^ 64 - 1, the guard _N < 0 never fires on the unsigned value, and the
attempted resize to 2 ^ 64 - 1 elements throws — the dependent arrays are
not left at size zero and the call does not return normally, contradicting
the documented clamp-to-zero policy. -/
theorem resize_underflow_throws :
    usub64 1 2 = 2 ^ 64 - 1 ∧
    ¬ usub64 1 2 < 0 ∧
    ({ qsm_Ntot_ := 1, qsm_N_ := 2 } : qsm_t).resizeQSM = .error () ∧
    ({ um_Ntot_ := 1, um_N_ := 2 } : ultrametric_t).resizeUM = .error () := by
  refine ⟨by decide, by decide, ?_, ?_⟩ <;> rfl

/-- C2 counterexample: starting from the default-constructed record,
setDefault() leaves the Ultrametric array um_alpha_ and the power-law array
plrb_a_ empty, refuting the claim that they come out non-empty. -/
theorem setDefault_leaves_um_plrb_empty :
    (UI_PARAMS.ModP.setDefault {}).ultrametric.um_alpha_ = [] ∧
    (UI_PARAMS.ModP.setDefault {}).power_law_random_bandwidth.plrb_a_ = [] :=
  ⟨rfl, rfl⟩

/-- C2 amended: setDefault() populates the random-realization list, the
Kitaev, Heisenberg, QSM and Rosenzweig-Porter coupling arrays with non-empty
(one-element) configurations, but leaves the Ultrametric array um_alpha_ and
the power-law-random-bandwidth array plrb_a_ untouched (hence empty on a
default-constructed record). -/
theorem setDefault_populates (p : UI_PARAMS.ModP) :
    (p.setDefault).modRanN_ ≠ [] ∧
    (p.setDefault).Kx_ ≠ [] ∧ (p.setDefault).Ky_ ≠ [] ∧
    (p.setDefault).Kz_ ≠ [] ∧
    (p.setDefault).heiJ_ ≠ [] ∧ (p.setDefault).heiDlt_ ≠ [] ∧
    (p.setDefault).heiHx_ ≠ [] ∧ (p.setDefault).heiHz_ ≠ [] ∧
    (p.setDefault).qsm.qsm_alpha_ ≠ [] ∧ (p.setDefault).qsm.qsm_xi_ ≠ [] ∧
    (p.setDefault).qsm.qsm_h_ ≠ [] ∧
    (p.setDefault).rosenzweig_porter.rp_g_ ≠ [] ∧
    (p.setDefault).ultrametric.um_alpha_ = p.ultrametric.um_alpha_ ∧
    (p.setDefault).power_law_random_bandwidth.plrb_a_
      = p.power_law_random_bandwidth.plrb_a_ := by
  refine ⟨?_, ?_, ?_, ?_, ?_, ?_, ?_, ?_, ?_, ?_, ?_, ?_, rfl, rfl⟩ <;>
    simp [UI_PARAMS.ModP.setDefault]

/-- C10: whenever modRanN_ is non-empty, getRanReal(i) succeeds for every
index i, returning modRanN_[i] for an in-bounds i and the last element
otherwise; on an empty modRanN_ the element access is out of bounds. -/
theorem getRanReal_total_inbounds (p : UI_PARAMS.ModP) (i : Nat) :
    (∀ h : p.modRanN_ ≠ [],
      (∃ v, p.getRanReal i = some v) ∧
      (i < p.modRanN_.length → p.getRanReal i = p.modRanN_.get? i) ∧
      (p.modRanN_.length ≤ i →
        p.getRanReal i = some (p.modRanN_.getLast h))) ∧
    (p.modRanN_ = [] → p.getRanReal i = none) := by
  constructor
  · intro h
    have hlen : 0 < p.modRanN_.length := List.length_pos.mpr h
    by_cases hi : i < p.modRanN_.length
    · have hv : p.modRanN_.get? i = some (p.modRanN_.get ⟨i, hi⟩) :=
        List.get?_eq_get hi
      refine ⟨⟨p.modRanN_.get ⟨i, hi⟩, ?_⟩, fun _ => ?_, fun hge => by omega⟩
      · simp only [UI_PARAMS.ModP.getRanReal, if_pos hi, hv]
      · simp only [UI_PARAMS.ModP.getRanReal, if_pos hi]
    · have hlt : p.modRanN_.length - 1 < p.modRanN_.length := by omega
      have hv : p.modRanN_.get? (p.modRanN_.length - 1)
          = some (p.modRanN_.get ⟨p.modRanN_.length - 1, hlt⟩) :=
        List.get?_eq_get hlt
      have hlast : p.modRanN_.get ⟨p.modRanN_.length - 1, hlt⟩
          = p.modRanN_.getLast h := by
        rw [List.get_length_sub_one]
      refine ⟨⟨p.modRanN_.getLast h, ?_⟩, fun hi2 => absurd hi2 hi, fun _ => ?_⟩
      · simp only [UI_PARAMS.ModP.getRanReal, if_neg hi, hv, hlast]
      · simp only [UI_PARAMS.ModP.getRanReal, if_neg hi, hv, hlast]
  · intro h
    simp [UI_PARAMS.ModP.getRanReal, h]

/-- Witness for C10: modRanN_ = [3, 5] and the out-of-range index 7 clamp to
the last element 5. -/
theorem getRanReal_total_inbounds_witness :
    ({ modRanN_ := [3, 5] } : UI_PARAMS.ModP).getRanReal 7 = some 5 :=
  ((((getRanReal_total_inbounds { modRanN_ := [3, 5] } 7).1
    (by decide)).2.2) (by decide)).trans (by decide)
